import Mathlib

set_option maxRecDepth 4000

/-!
Verification of the worker-supervisor core of the BareMetalPHP app server
(`server` Go package): request classification, adaptive route promotion,
the framed worker protocol, the worker lifecycle, and the WebSocket hub.
Each Go function used by the claims is embedded as an executable Lean
definition mirroring the source; theorems settle the specified properties.
-/

namespace AppServer

/-- Character-list test: does `s` start with `p`?  Mirrors Go
`strings.HasPrefix` (byte comparison on UTF-8 text, here char-exact). -/
def startsWithSeq : List Char → List Char → Bool
  | _, [] => true
  | [], _ :: _ => false
  | a :: as, b :: bs => a == b && startsWithSeq as bs

/-- Mirrors Go `strings.Contains`: does `s` contain `pat` as a contiguous run? -/
def containsSeq (s pat : List Char) : Bool :=
  match s with
  | [] => startsWithSeq [] pat
  | c :: as => startsWithSeq (c :: as) pat || containsSeq as pat

/-- Go `strings.HasPrefix s p`. -/
def goHasPfx (s p : String) : Bool := startsWithSeq s.data p.data

/-- Go `strings.Contains s pat`. -/
def goContains (s pat : String) : Bool := containsSeq s.data pat.data

/-- Go `strings.ToUpper` restricted to the ASCII fragment used by HTTP
method names (Go upcases Unicode generally; `Char.toUpper` upcases ASCII). -/
def goToUpper (s : String) : String := ⟨s.data.map Char.toUpper⟩

/-- Go `len` on a string: the number of UTF-8 bytes. -/
def goStrLen (s : String) : Nat := s.data.foldl (fun n c => n + c.utf8Size) 0

/-- The `RequestPayload` struct (payload.go): id, method, path, headers, body. -/
structure RequestPayload where
  id : String
  method : String
  path : String
  headers : List (String × List String)
  body : String
deriving Repr, DecidableEq

/-- The `ResponsePayload` struct (payload.go). -/
structure ResponsePayload where
  id : String
  status : Int
  headers : List (String × String)
  body : String
deriving Repr, DecidableEq

/-- The `SlowRequestConfig` struct (server.go): route path markers, methods,
and a body-size threshold in bytes. -/
structure SlowRequestConfig where
  RoutePrefixes : List String
  Methods : List String
  BodyThreshold : Int
deriving Repr, DecidableEq

/-- `Server.IsSlowRequest` (server.go): route markers first (skipping empty
ones), then the body-size threshold (only when positive), then the method
list compared case-insensitively by upcasing both sides. -/
def IsSlowRequest (cfg : SlowRequestConfig) (r : RequestPayload) : Bool :=
  cfg.RoutePrefixes.any (fun p => p != "" && goHasPfx r.path p) ||
  (decide (0 < cfg.BodyThreshold) && decide (cfg.BodyThreshold < (goStrLen r.body : Int))) ||
  cfg.Methods.any (fun m => goToUpper r.method == goToUpper m)

/-- The claim's literal reading of classification (spec wording): path starts
with some configured marker, or the upcased method is a member of the
configured method list, or the body length exceeds the threshold. -/
def slowSpecLiteral (cfg : SlowRequestConfig) (r : RequestPayload) : Bool :=
  cfg.RoutePrefixes.any (fun p => goHasPfx r.path p) ||
  cfg.Methods.contains (goToUpper r.method) ||
  decide (cfg.BodyThreshold < (goStrLen r.body : Int))

/-- Configuration with an empty route marker and a request that matches
nothing else: the code skips the empty marker, the literal claim does not. -/
def cexCfg : SlowRequestConfig := ⟨[""], ["PUT"], 10⟩

/-- A small GET request with an empty body. -/
def cexReq : RequestPayload := ⟨"1", "GET", "/x", [], ""⟩

/-- Association-list lookup, mirroring a Go map read (`m[k]`). -/
def lookupA {κ α : Type} [BEq κ] : List (κ × α) → κ → Option α
  | [], _ => none
  | (k, v) :: rest, key => if k == key then some v else lookupA rest key

/-- Association-list update, mirroring a Go map write (`m[k] = v`). -/
def setA {κ α : Type} [BEq κ] : List (κ × α) → κ → α → List (κ × α)
  | [], key, v => [(key, v)]
  | (k, w) :: rest, key, v =>
    if k == key then (key, v) :: rest else (k, w) :: setA rest key v

/-- An entry of `Server.routeStats` (server.go `routeStats` struct):
observation count (`uint64`) and total latency (`time.Duration`, int64 ns). -/
structure RouteStat where
  count : Nat
  totalLatency : Int
deriving Repr, DecidableEq

/-- The supervisor state relevant to classification and adaptive promotion:
the slow-request policy plus the route-latency table. -/
structure ServerState where
  slowCfg : SlowRequestConfig
  routeStats : List (String × RouteStat)
deriving Repr, DecidableEq

/-- Wrap-around of Go `uint64` arithmetic. -/
def wrapU64 (n : Nat) : Nat := n % 2 ^ 64

/-- Wrap-around of Go `int64` arithmetic. -/
def wrapI64 (x : Int) : Int := (x + 2 ^ 63) % 2 ^ 64 - 2 ^ 63

/-- Go conversion `int64(u)` of a `uint64` value. -/
def int64OfUint64 (n : Nat) : Int :=
  if n < 2 ^ 63 then (n : Int) else (n : Int) - 2 ^ 64

/-- The route key of `Server.RecordLatency` (server.go): the path trimmed to
its first segment (`/users/1 → /users`); a path not starting with `/`, or
with no second `/`, is kept whole. -/
def routeKey (path : String) : String :=
  if goHasPfx path "/" then
    match List.findIdx? (fun c => c == '/') (path.data.drop 1) with
    | some slash => ⟨path.data.take (slash + 1)⟩
    | none => path
  else path

/-- `Server.hasSlowPrefix` (server.go): linear membership scan of the
configured route markers. -/
def hasSlowPfx (cfg : SlowRequestConfig) (p : String) : Bool :=
  cfg.RoutePrefixes.contains p

/-- `Server.RecordLatency` (server.go): bump the route entry, then promote
the route key once `count ≥ 10` and the integer-divided average latency
exceeds 500 ms and the key is not yet a configured marker. -/
def RecordLatency (s : ServerState) (path : String) (d : Int) : ServerState :=
  let key := routeKey path
  let rs := (lookupA s.routeStats key).getD ⟨0, 0⟩
  let rs' : RouteStat := ⟨wrapU64 (rs.count + 1), wrapI64 (rs.totalLatency + d)⟩
  let stats' := setA s.routeStats key rs'
  if 10 ≤ rs'.count then
    let avg := Int.tdiv rs'.totalLatency (int64OfUint64 rs'.count)
    if 500000000 < avg ∧ hasSlowPfx s.slowCfg key = false then
      { slowCfg := { s.slowCfg with RoutePrefixes := s.slowCfg.RoutePrefixes ++ [key] },
        routeStats := stats' }
    else { s with routeStats := stats' }
  else { s with routeStats := stats' }

/-- A sequence of `RecordLatency` calls, folded left to right. -/
def recordMany (s : ServerState) (calls : List (String × Int)) : ServerState :=
  calls.foldl (fun st c => RecordLatency st c.1 c.2) s

/-- The stat entry stored for key `k` (zero entry when absent). -/
def statOf (s : ServerState) (k : String) : RouteStat :=
  (lookupA s.routeStats k).getD ⟨0, 0⟩

/-- Initial supervisor state for the promotion counterexample: no route
markers, methods `PUT`, body threshold 10 bytes. -/
def c2State : ServerState := ⟨⟨[], ["PUT"], 10⟩, []⟩

/-- A small GET request whose path `/x` starts with the empty route key. -/
def c2Req : RequestPayload := ⟨"2", "GET", "/x", [], ""⟩

/-- Ten latency observations of 600 ms recorded for the empty path. -/
def c2After : ServerState := recordMany c2State (List.replicate 10 ("", 600000000))

/-- Nine observations of 600 ms for `/r/d`, one short of the promotion count. -/
def c2Nine : ServerState :=
  recordMany ⟨⟨[], ["PUT"], 10⟩, []⟩ (List.replicate 9 ("/r/d", 600000000))

/-- A GET request under the `/r` route. -/
def c2WitReq : RequestPayload := ⟨"3", "GET", "/r/x", [], ""⟩

/-- Decimal digit character, as Go's `byte(digit) + '0'`. -/
def digitChar (n : Nat) : Char := Char.ofNat (48 + n % 10)

/-- Fuel-driven digit printer; with fuel `> log10 n` it yields the decimal
digits of `n`, matching Go's `fmtInt` (which prints `"0"` for zero). -/
def natDigitsAux : Nat → Nat → List Char
  | 0, _ => []
  | fuel + 1, n =>
    if n < 10 then [digitChar n]
    else natDigitsAux fuel (n / 10) ++ [digitChar (n % 10)]

/-- Go `fmtInt` (time package): decimal digits of `n`. -/
def natDigits (n : Nat) : List Char := natDigitsAux (n + 1) n

/-- Go `fmtFrac` loop (time package): peel `p` least-significant digits of
`v`, printing from the first non-zero one on; returns the printed run (in
display order), the remaining value, and the print flag. -/
def fmtFracGo : Nat → Nat → Bool → List Char × Nat × Bool
  | v, 0, pr => ([], v, pr)
  | v, p + 1, pr =>
    let pr1 := pr || decide (v % 10 ≠ 0)
    let r := fmtFracGo (v / 10) p pr1
    (r.1 ++ (if pr1 then [digitChar (v % 10)] else []), r.2.1, r.2.2)

/-- Go `fmtFrac` (time package): the fractional part (with leading `'.'`
when non-empty) and the remaining integer value. -/
def fmtFrac (v prec : Nat) : List Char × Nat :=
  let r := fmtFracGo v prec false
  ((if r.2.2 then '.' :: r.1 else r.1), r.2.1)

/-- Go `time.Duration.String` (stdlib), digit for digit: sub-second values
use `ns`/`µs`/`ms` with a trimmed fraction; larger values use `h`/`m`/`s`. -/
def goDurationChars (d : Int) : List Char :=
  let u := d.natAbs
  let sign : List Char := if d < 0 then ['-'] else []
  if u < 1000000000 then
    if u = 0 then ['0', 's']
    else
      let pu : Nat × List Char :=
        if u < 1000 then (0, ['n', 's'])
        else if u < 1000000 then (3, ['µ', 's'])
        else (6, ['m', 's'])
      let fr := fmtFrac u pu.1
      sign ++ natDigits fr.2 ++ fr.1 ++ pu.2
  else
    let fr := fmtFrac u 9
    let secs := natDigits (fr.2 % 60) ++ fr.1 ++ ['s']
    let u2 := fr.2 / 60
    let rest :=
      if u2 = 0 then secs
      else
        let mins := natDigits (u2 % 60) ++ ['m'] ++ secs
        if u2 / 60 = 0 then mins else natDigits (u2 / 60) ++ ['h'] ++ mins
    sign ++ rest

/-- String form of `goDurationChars`. -/
def goDurationString (d : Int) : String := ⟨goDurationChars d⟩

/-- Go error values distinguished by the worker code: the two `io` sentinel
errors (compared by identity) and `fmt.Errorf`-created errors carrying only
their text. -/
inductive GoError
  | eofErr
  | unexpectedEOF
  | fmtError (msg : String)
deriving Repr, DecidableEq

/-- The `Error()` text of a modeled Go error. -/
def goErrorText : GoError → String
  | .eofErr => "EOF"
  | .unexpectedEOF => "unexpected EOF"
  | .fmtError s => s

/-- `isBrokenPipe` (worker.go): identity with `io.EOF`/`io.ErrUnexpectedEOF`
or an error text containing one of the pipe-closure markers. -/
def isBrokenPipe (e : GoError) : Bool :=
  e == .eofErr || e == .unexpectedEOF ||
  goContains (goErrorText e) "broken pipe" ||
  goContains (goErrorText e) "write |1:" ||
  goContains (goErrorText e) "read |0:"

/-- Flags the characters `isBrokenPipe` keys on: `'b'` (from "broken pipe")
and `'|'` (from the pipe-path markers).  A string whose characters all
satisfy `okChar` cannot contain any of the three marker substrings. -/
def okChar (c : Char) : Bool := !(c == 'b' || c == '|')

/-- The big-endian 32-bit length decode as written in worker.go:
`uint32(hdr[0])<<24 | uint32(hdr[1])<<16 | uint32(hdr[2])<<8 | uint32(hdr[3])`. -/
def beUint32 (b0 b1 b2 b3 : Fin 256) : Nat :=
  (b0.val <<< 24) ||| (b1.val <<< 16) ||| (b2.val <<< 8) ||| b3.val

/-- The frame read common to `Worker.handleRequest` and
`Worker.streamInternal` (worker.go): read a 4-byte big-endian length,
reject zero or over-10-MiB lengths with `io.ErrUnexpectedEOF`, then read
exactly that many payload bytes (`io.ReadFull` semantics on the stream
tail: empty ⇒ `io.EOF`, short ⇒ `io.ErrUnexpectedEOF`).  Returns the
declared length, the payload, and the unread remainder. -/
def readFrame (input : List (Fin 256)) :
    Except GoError (Nat × List (Fin 256) × List (Fin 256)) :=
  match input with
  | [] => .error .eofErr
  | b0 :: b1 :: b2 :: b3 :: rest =>
    if beUint32 b0 b1 b2 b3 = 0 ∨ 10 * 1024 * 1024 < beUint32 b0 b1 b2 b3 then
      .error .unexpectedEOF
    else if rest.length < beUint32 b0 b1 b2 b3 then
      if rest.length = 0 then .error .eofErr else .error .unexpectedEOF
    else .ok (beUint32 b0 b1 b2 b3, rest.take (beUint32 b0 b1 b2 b3),
      rest.drop (beUint32 b0 b1 b2 b3))
  | _ => .error .unexpectedEOF

/-- The mutable `Worker` fields the supervisor logic reads and writes
(worker.go): liveness flag, served-count (`uint64`), request budget and
per-request timeout (Go `int`/`time.Duration`), and whether the current
child was killed and reaped. -/
structure WorkerState where
  dead : Bool
  requestCount : Nat
  maxRequests : Int
  requestTimeout : Int
  killedReaped : Bool
deriving Repr, DecidableEq

/-- `Worker.isDead` (worker.go). -/
def isDeadW (w : WorkerState) : Bool := w.dead

/-- `Worker.markDead` (worker.go). -/
def markDeadW (w : WorkerState) : WorkerState := { w with dead := true }

/-- `Worker.restart` (worker.go): kill and reap the old child, spawn a new
one (`spawn` is the spawn outcome); success clears the liveness flag and
resets the served-count, failure propagates leaving the state unchanged. -/
def restartW (w : WorkerState) (spawn : Option GoError) : Except GoError WorkerState :=
  match spawn with
  | some e => .error e
  | none => .ok { w with dead := false, requestCount := 0, killedReaped := false }

/-- The child's observable behavior during one `handleRequest` exchange:
the request write fails, or the reader task delivers a result within the
timeout window, or nothing arrives within the window. -/
inductive ExchangeOutcome
  | writeFail (e : GoError)
  | reply (res : Except GoError ResponsePayload)
  | silent

/-- The error produced by an exchange outcome, when it is an error. -/
def outcomeErr : ExchangeOutcome → Option GoError
  | .writeFail e => some e
  | .reply (.error e) => some e
  | _ => none

/-- `Worker.handleRequest` (worker.go): write the framed request, read the
reply in a detached task, and select the result against the timeout.  On
timeout: mark dead, kill and reap the child, and return the formatted
timeout error.  `none` models the call blocking forever (no timeout
configured and no reply). -/
def handleRequestW (w : WorkerState) (x : ExchangeOutcome) :
    Option (Except GoError ResponsePayload × WorkerState) :=
  match x with
  | .writeFail e => some (.error e, w)
  | .reply res => some (res, w)
  | .silent =>
    if 0 < w.requestTimeout then
      some (.error (.fmtError ("worker request timeout after " ++
          goDurationString w.requestTimeout)),
        { w with dead := true, killedReaped := true })
    else none

/-- The stdout-reader task of `Worker.handleRequest` (worker.go): a
length-prefixed frame read followed by JSON decoding of the payload
(`decodePayload` stands for `encoding/json.Unmarshal`, external code). -/
def bufferedReadResult (bytes : List (Fin 256))
    (decodePayload : List (Fin 256) → Except GoError ResponsePayload) :
    Except GoError ResponsePayload :=
  match readFrame bytes with
  | .error e => .error e
  | .ok (_, payload, _) => decodePayload payload

/-- Result of `Worker.Handle`: the returned value, the final worker state,
and how many `handleRequest` exchanges were performed. -/
structure HandleResult where
  res : Except GoError ResponsePayload
  final : WorkerState
  exchanges : Nat
deriving Repr

/-- The attempt loop of `Worker.Handle` (worker.go): at most two attempts;
a dead worker is restarted first (spawn failure propagates); a broken-pipe
class error marks the worker dead and re-enters the loop; any other error
returns; a success bumps the served-count and marks the worker dead once it
reaches a positive budget.  `ro`/`xo` give each attempt's restart and
exchange outcome; `used` counts exchanges performed so far. -/
def handleLoop (ro : Nat → Option GoError) (xo : Nat → ExchangeOutcome) :
    Nat → Nat → WorkerState → Nat → Option HandleResult
  | 0, _, w, used => some ⟨.error .unexpectedEOF, w, used⟩
  | fuel + 1, attempt, w, used =>
    match (if w.dead then restartW w (ro attempt) else .ok w) with
    | .error e => some ⟨.error e, w, used⟩
    | .ok w1 =>
      match handleRequestW w1 (xo attempt) with
      | none => none
      | some (.error e, w2) =>
        if isBrokenPipe e then
          handleLoop ro xo fuel (attempt + 1) (markDeadW w2) (used + 1)
        else some ⟨.error e, w2, used + 1⟩
      | some (.ok resp, w2) =>
        let n := wrapU64 (w2.requestCount + 1)
        let d := if 0 < w2.maxRequests ∧ w2.maxRequests ≤ int64OfUint64 n
                 then true else w2.dead
        some ⟨.ok resp, { w2 with requestCount := n, dead := d }, used + 1⟩

/-- `Worker.Handle` (worker.go): the two-attempt loop from a given state. -/
def Handle (w : WorkerState) (ro : Nat → Option GoError)
    (xo : Nat → ExchangeOutcome) : Option HandleResult :=
  handleLoop ro xo 2 0 w 0

/-- A worker as produced by `NewWorker` (worker.go): alive, zero count. -/
def freshWorker (maxRequests requestTimeout : Int) : WorkerState :=
  ⟨false, 0, maxRequests, requestTimeout, false⟩

/-- Worker state after `k` consecutive successful `Handle` calls. -/
def afterSuccesses (resp : ResponsePayload) (w : WorkerState) : Nat → WorkerState
  | 0 => w
  | k + 1 =>
    match Handle (afterSuccesses resp w k) (fun _ => none)
        (fun _ => .reply (.ok resp)) with
    | some r => r.final
    | none => afterSuccesses resp w k

/-- Worker with budget 100 and a one-second timeout, used in scenarios. -/
def c3Worker : WorkerState := freshWorker 100 1000000000

/-- A plain 200 response. -/
def c3Resp : ResponsePayload := ⟨"r3", 200, [], "ok"⟩

/-- Exchange script: the first attempt hits `io.EOF`, the retry succeeds. -/
def c3Xo : Nat → ExchangeOutcome :=
  fun a => if a = 0 then .reply (.error .eofErr) else .reply (.ok c3Resp)

/-- Worker and script for the frame-size-violation scenario: the child's
first reply is a frame with a zero length header, the retry succeeds. -/
def c6Dec : List (Fin 256) → Except GoError ResponsePayload :=
  fun _ => .error (.fmtError "json: unused")

/-- A 201 response delivered on the retry of the size-violation scenario. -/
def c6Resp : ResponsePayload := ⟨"r6", 201, [], "again"⟩

/-- Exchange script: first a zero-length frame read, then a success. -/
def c6Xo : Nat → ExchangeOutcome :=
  fun a => if a = 0 then .reply (bufferedReadResult [0, 0, 0, 0] c6Dec)
           else .reply (.ok c6Resp)

/-- A decoded JSON value, the form of a worker frame payload. -/
inductive Json
  | null
  | jbool (b : Bool)
  | jnum (n : Int)
  | jstr (s : String)
  | jarr (xs : List Json)
  | jobj (fields : List (String × Json))

/-- The JSON kind name used in `encoding/json` error messages. -/
def jsonTypeName : Json → String
  | .null => "null"
  | .jbool _ => "bool"
  | .jnum _ => "number"
  | .jstr _ => "string"
  | .jarr _ => "array"
  | .jobj _ => "object"

/-- The `StreamFrame` struct (part_006): type tag, status, single-valued
headers (`map[string]string`; `none` models a nil map), inline data, and
error text.  Zero values: `""`, `0`, nil, `""`, `""`. -/
structure StreamFrameM where
  typ : String
  status : Int
  headers : Option (List (String × String))
  data : String
  error : String
deriving Repr

/-- `encoding/json` decoding of a string-typed struct field: absent or
null keeps the zero value; a non-string value is a type error. -/
def decodeStringField (fields : List (String × Json)) (key : String) :
    Except GoError String :=
  match lookupA fields key with
  | none => .ok ""
  | some .null => .ok ""
  | some (.jstr s) => .ok s
  | some v => .error (.fmtError ("json: cannot unmarshal " ++ jsonTypeName v ++
      " into Go value of type string"))

/-- `encoding/json` decoding of an integer struct field. -/
def decodeIntField (fields : List (String × Json)) (key : String) :
    Except GoError Int :=
  match lookupA fields key with
  | none => .ok 0
  | some .null => .ok 0
  | some (.jnum n) => .ok n
  | some v => .error (.fmtError ("json: cannot unmarshal " ++ jsonTypeName v ++
      " into Go value of type int"))

/-- `encoding/json` decoding of a `map[string]string` value: every map
value must itself be a string (an array value, as in multi-valued headers,
is a type error). -/
def decodeHeadersMap : List (String × Json) → Except GoError (List (String × String))
  | [] => .ok []
  | (k, .jstr s) :: rest =>
    match decodeHeadersMap rest with
    | .error e => .error e
    | .ok hs => .ok ((k, s) :: hs)
  | (k, .null) :: rest =>
    match decodeHeadersMap rest with
    | .error e => .error e
    | .ok hs => .ok ((k, "") :: hs)
  | (_, v) :: _ => .error (.fmtError ("json: cannot unmarshal " ++ jsonTypeName v ++
      " into Go value of type string"))

/-- `encoding/json` decoding of the `headers` field into
`map[string]string` (`none` = nil map when absent or null). -/
def decodeHeadersField (fields : List (String × Json)) :
    Except GoError (Option (List (String × String))) :=
  match lookupA fields "headers" with
  | none => .ok none
  | some .null => .ok none
  | some (.jobj hs) =>
    match decodeHeadersMap hs with
    | .error e => .error e
    | .ok m => .ok (some m)
  | some v => .error (.fmtError ("json: cannot unmarshal " ++ jsonTypeName v ++
      " into Go value of type map[string]string"))

/-- `json.Unmarshal` of a frame payload into `StreamFrame` (worker.go /
part_006): field-wise decode with Go's zero values for absent fields; any
type mismatch fails the decode. -/
def goUnmarshalStreamFrame (j : Json) : Except GoError StreamFrameM :=
  match j with
  | .jobj fields => do
    let ty ← decodeStringField fields "type"
    let st ← decodeIntField fields "status"
    let hs ← decodeHeadersField fields
    let da ← decodeStringField fields "data"
    let er ← decodeStringField fields "error"
    return ⟨ty, st, hs, da, er⟩
  | .null => .ok ⟨"", 0, none, "", ""⟩
  | v => .error (.fmtError ("json: cannot unmarshal " ++ jsonTypeName v ++
      " into Go value of type StreamFrame"))

/-- The parts of `http.ResponseWriter` that `streamInternal` touches:
the header map (`Set` replaces), the written status, the body bytes. -/
structure RWState where
  header : List (String × String)
  wroteStatus : Option Int
  body : String
deriving Repr, DecidableEq

/-- `rw.Header().Set k v`: replace-or-insert a single-valued header. -/
def rwSet (rw : RWState) (k v : String) : RWState :=
  { rw with header := setA rw.header k v }

/-- Approximation of Go's `%q` for the tag names occurring here. -/
def quoteGo (s : String) : String := "\"" ++ s ++ "\""

/-- Result of a stream exchange: the error (none = clean `end`), the final
response-writer state, and whether the loop marked the worker dead. -/
structure StreamResult where
  err : Option GoError
  rw : RWState
  markedDead : Bool
deriving Repr

/-- The frame loop of `Worker.streamInternal` (worker.go), over decoded
frame payloads (the byte-level framing is `readFrame`): `headers` sets
single-valued headers and writes the status (frame status 0 keeps the
current default), `chunk` writes the status once and appends data, `end`
finishes, `error` fails with the carried message, an unknown tag fails; a
failed read (exhausted input) or a failed decode marks the worker dead. -/
def streamLoop : List Json → RWState → Bool → Int → StreamResult
  | [], rw, _, _ => ⟨some .eofErr, rw, true⟩
  | j :: rest, rw, headersSent, status =>
    match goUnmarshalStreamFrame j with
    | .error e => ⟨some e, rw, true⟩
    | .ok frame =>
      if frame.typ = "headers" then
        let rw1 := match frame.headers with
          | some hs => hs.foldl (fun acc (kv : String × String) => rwSet acc kv.1 kv.2) rw
          | none => rw
        let status1 := if frame.status ≠ 0 then frame.status else status
        let rw2 := { rw1 with wroteStatus := some status1 }
        let rw3 := if frame.data ≠ "" then { rw2 with body := rw2.body ++ frame.data }
                   else rw2
        streamLoop rest rw3 true status1
      else if frame.typ = "chunk" then
        let rw1 := if headersSent then rw else { rw with wroteStatus := some status }
        let rw2 := if frame.data ≠ "" then { rw1 with body := rw1.body ++ frame.data }
                   else rw1
        streamLoop rest rw2 true status
      else if frame.typ = "end" then ⟨none, rw, false⟩
      else if frame.typ = "error" then
        ⟨some (.fmtError ("stream error from worker: " ++ frame.error)), rw, false⟩
      else ⟨some (.fmtError ("unknown stream frame type: " ++ quoteGo frame.typ)),
        rw, false⟩

/-- A stream exchange from the initial writer state (no headers written,
default status 200). -/
def streamRun (frames : List Json) : StreamResult :=
  streamLoop frames ⟨[], none, ""⟩ false 200

/-- The scenario headers frame: multi-valued `X-Test` and `Set-Cookie`. -/
def c8HeadersFrame : Json :=
  .jobj [("type", .jstr "headers"), ("status", .jnum 200),
    ("headers", .jobj [("X-Test", .jarr [.jstr "one", .jstr "two"]),
      ("Set-Cookie", .jarr [.jstr "a=1", .jstr "b=2"])]),
    ("data", .jstr "hello")]

/-- The `end` frame. -/
def c8EndFrame : Json := .jobj [("type", .jstr "end")]

/-- A hub event (`WSMessage`, part_009): channel, type, encoded payload. -/
structure WSMessageM where
  channel : String
  msgType : String
  data : String
deriving Repr, DecidableEq

/-- The hub state (`WSHub`, part_009): the per-channel subscriber sets
(clients as ids), each client's FIFO contents (`Send`, capacity 16), and
how many times each client's FIFO has been closed (closing a closed Go
channel panics, so a count above 1 is the double-close fault). -/
structure HubState where
  clients : List (String × List Nat)
  bufs : List (Nat × List WSMessageM)
  closed : List (Nat × Nat)
deriving Repr, DecidableEq

/-- The subscriber set registered for a channel (empty when absent). -/
def subscribersOf (h : HubState) (ch : String) : List Nat :=
  (lookupA h.clients ch).getD []

/-- A client's FIFO contents. -/
def bufOf (h : HubState) (c : Nat) : List WSMessageM :=
  (lookupA h.bufs c).getD []

/-- How many times a client's FIFO has been closed. -/
def closedCount (h : HubState) (c : Nat) : Nat :=
  (lookupA h.closed c).getD 0

/-- Association-list key removal, mirroring Go `delete(m, k)`. -/
def removeA {κ α : Type} [BEq κ] : List (κ × α) → κ → List (κ × α)
  | [], _ => []
  | (k, v) :: rest, key =>
    if k == key then removeA rest key else (k, v) :: removeA rest key

/-- `WSHub.Unsubscribe` (part_009): no-op when the channel has no entry;
otherwise remove the client from the set, close its FIFO
(unconditionally — even if the client was already removed), and drop the
channel entry when the set became empty. -/
def UnsubscribeM (h : HubState) (ch : String) (c : Nat) : HubState :=
  match lookupA h.clients ch with
  | none => h
  | some subs =>
    let subs' := subs.filter (fun x => x != c)
    let closed' := setA h.closed c (closedCount h c + 1)
    if subs'.isEmpty then
      ⟨removeA h.clients ch, h.bufs, closed'⟩
    else
      ⟨setA h.clients ch subs', h.bufs, closed'⟩

/-- The non-blocking offer of `WSHub.Publish` (part_009): append to the
client's FIFO when it has room (length < 16), otherwise drop silently. -/
def offerEv (ev : WSMessageM) (bufs : List (Nat × List WSMessageM)) (c : Nat) :
    List (Nat × List WSMessageM) :=
  let q := (lookupA bufs c).getD []
  if q.length < 16 then setA bufs c (q ++ [ev]) else bufs

/-- `WSHub.Publish` (part_009): `enc` is the `json.Marshal` outcome
(`none` = marshal error: logged and dropped); otherwise the message is
offered to every subscriber of the channel without blocking. -/
def PublishM (h : HubState) (ch msgType : String) (enc : Option String) : HubState :=
  match enc with
  | none => h
  | some data =>
    let ev : WSMessageM := ⟨ch, msgType, data⟩
    { h with bufs := (subscribersOf h ch).foldl (offerEv ev) h.bufs }

/-- Hub with clients 1 and 2 on channel `room`. -/
def c9Hub : HubState := ⟨[("room", [1, 2])], [(1, []), (2, [])], []⟩

/-- Hub where client 1 has an empty FIFO and client 2 a full one. -/
def c10Hub : HubState :=
  ⟨[("room", [1, 2])], [(1, []), (2, List.replicate 16 ⟨"room", "old", "x"⟩)], []⟩

/-! ## Theorems -/

/-- C1 (counterexample): with a configured empty route marker, the literal
spec reading classifies every request as slow, but `IsSlowRequest` skips
empty markers and returns `false` for a small GET request. -/
theorem isSlowRequest_claim_counterexample :
    IsSlowRequest cexCfg cexReq = false ∧ slowSpecLiteral cexCfg cexReq = true := by
  constructor <;> decide

/-- C1 (amended): `IsSlowRequest cfg r` is true iff the path starts with a
configured non-empty route marker, or the body threshold is positive and the
body byte length exceeds it, or the upcased method equals the upcasing of
some configured method. -/
theorem isSlowRequest_characterization (cfg : SlowRequestConfig) (r : RequestPayload) :
    IsSlowRequest cfg r = true ↔
      (∃ p ∈ cfg.RoutePrefixes, p ≠ "" ∧ goHasPfx r.path p = true) ∨
      (0 < cfg.BodyThreshold ∧ cfg.BodyThreshold < (goStrLen r.body : Int)) ∨
      (∃ m ∈ cfg.Methods, goToUpper r.method = goToUpper m) := by
  simp only [IsSlowRequest, Bool.or_eq_true, Bool.and_eq_true, List.any_eq_true,
    decide_eq_true_eq, bne_iff_ne, beq_iff_eq, ne_eq, or_assoc]

theorem lookupA_setA_self {κ α : Type} [BEq κ] [LawfulBEq κ]
    (l : List (κ × α)) (k : κ) (v : α) : lookupA (setA l k v) k = some v := by
  induction l with
  | nil => simp [setA, lookupA]
  | cons hd tl ih =>
    obtain ⟨k', w⟩ := hd
    by_cases h : (k' == k) = true
    · simp [setA, h, lookupA]
    · simp [setA, h, lookupA, ih]

theorem mem_markers_recordLatency {q : String} (s : ServerState) (p : String) (d : Int)
    (h : q ∈ s.slowCfg.RoutePrefixes) : q ∈ (RecordLatency s p d).slowCfg.RoutePrefixes := by
  unfold RecordLatency
  dsimp only
  split
  · split
    · simp only [List.mem_append]
      exact Or.inl h
    · exact h
  · exact h

theorem mem_markers_recordMany {q : String} (s : ServerState) (calls : List (String × Int))
    (h : q ∈ s.slowCfg.RoutePrefixes) : q ∈ (recordMany s calls).slowCfg.RoutePrefixes := by
  induction calls generalizing s with
  | nil => exact h
  | cons c rest ih => exact ih _ (mem_markers_recordLatency _ _ _ h)

theorem isSlow_of_marker {cfg : SlowRequestConfig} {r : RequestPayload} {K : String}
    (hmem : K ∈ cfg.RoutePrefixes) (hne : K ≠ "") (hp : goHasPfx r.path K = true) :
    IsSlowRequest cfg r = true := by
  simp only [IsSlowRequest, Bool.or_eq_true, Bool.and_eq_true, List.any_eq_true,
    bne_iff_ne, ne_eq, or_assoc]
  exact Or.inl ⟨K, hmem, hne, hp⟩

theorem statOf_recordLatency (s : ServerState) (p : String) (d : Int) :
    statOf (RecordLatency s p d) (routeKey p) =
      ⟨wrapU64 ((statOf s (routeKey p)).count + 1),
       wrapI64 ((statOf s (routeKey p)).totalLatency + d)⟩ := by
  unfold RecordLatency statOf
  dsimp only
  split
  · split <;> simp [lookupA_setA_self]
  · simp [lookupA_setA_self]

theorem key_mem_after_promotion (s : ServerState) (p : String) (d : Int)
    (hcount : 10 ≤ (statOf (RecordLatency s p d) (routeKey p)).count)
    (havg : 500000000 < Int.tdiv (statOf (RecordLatency s p d) (routeKey p)).totalLatency
      (int64OfUint64 (statOf (RecordLatency s p d) (routeKey p)).count)) :
    routeKey p ∈ (RecordLatency s p d).slowCfg.RoutePrefixes := by
  rw [statOf_recordLatency] at hcount havg
  unfold RecordLatency
  dsimp only
  unfold statOf at hcount havg
  split
  · split
    · simp only [List.mem_append, List.mem_singleton]
      exact Or.inr trivial
    · next hcond =>
      rcases not_and_or.mp hcond with hlt | hmk
      · exact absurd havg hlt
      · have : hasSlowPfx s.slowCfg (routeKey p) = true := by
          cases hb : hasSlowPfx s.slowCfg (routeKey p) with
          | false => exact absurd hb hmk
          | true => rfl
        exact List.mem_of_elem_eq_true this
  · next hc => exact absurd hcount hc

/-- C2 (counterexample): recording ten 600 ms observations for the empty
path promotes the empty route key, yet a request whose path starts with that
key (every path does) still classifies as fast, because `IsSlowRequest`
skips empty markers. -/
theorem recordLatency_promotion_counterexample :
    "" ∈ c2After.slowCfg.RoutePrefixes ∧ goHasPfx c2Req.path "" = true ∧
      IsSlowRequest c2After.slowCfg c2Req = false :=
  ⟨by decide, by decide, by decide⟩

/-- C2 (amended): for a non-empty route key, once a `RecordLatency` call
leaves its entry with `count ≥ 10` and integer-average latency above 500 ms,
the key is in the slow-marker list, and classification after any further
`RecordLatency` calls returns slow for every request whose path starts with
the key. -/
theorem recordLatency_promotion (s : ServerState) (p : String) (d : Int)
    (calls : List (String × Int)) (r : RequestPayload)
    (hne : routeKey p ≠ "")
    (hcount : 10 ≤ (statOf (RecordLatency s p d) (routeKey p)).count)
    (havg : 500000000 < Int.tdiv (statOf (RecordLatency s p d) (routeKey p)).totalLatency
      (int64OfUint64 (statOf (RecordLatency s p d) (routeKey p)).count))
    (hpath : goHasPfx r.path (routeKey p) = true) :
    routeKey p ∈ (RecordLatency s p d).slowCfg.RoutePrefixes ∧
      IsSlowRequest (recordMany (RecordLatency s p d) calls).slowCfg r = true := by
  have hmem := key_mem_after_promotion s p d hcount havg
  exact ⟨hmem, isSlow_of_marker (mem_markers_recordMany _ _ hmem) hne hpath⟩

theorem beUint32_eq (b0 b1 b2 b3 : Fin 256) :
    beUint32 b0 b1 b2 b3 = b0.val * 16777216 + b1.val * 65536 + b2.val * 256 + b3.val := by
  have hb0 := b0.isLt
  have hb1 := b1.isLt
  have hb2 := b2.isLt
  have hb3 := b3.isLt
  have e3 : (2 : Nat) ^ 8 * b2.val ||| b3.val = 2 ^ 8 * b2.val + b3.val :=
    (Nat.mul_add_lt_is_or (by omega) b2.val).symm
  have e2 : (2 : Nat) ^ 16 * b1.val ||| (2 ^ 8 * b2.val + b3.val)
      = 2 ^ 16 * b1.val + (2 ^ 8 * b2.val + b3.val) :=
    (Nat.mul_add_lt_is_or (by omega) b1.val).symm
  have e1 : (2 : Nat) ^ 24 * b0.val ||| (2 ^ 16 * b1.val + (2 ^ 8 * b2.val + b3.val))
      = 2 ^ 24 * b0.val + (2 ^ 16 * b1.val + (2 ^ 8 * b2.val + b3.val)) :=
    (Nat.mul_add_lt_is_or (by omega) b0.val).symm
  unfold beUint32
  rw [Nat.or_assoc, Nat.or_assoc, Nat.shiftLeft_eq, Nat.shiftLeft_eq, Nat.shiftLeft_eq,
    Nat.mul_comm b2.val, Nat.mul_comm b1.val, Nat.mul_comm b0.val, e3, e2, e1]
  omega

/-- C5: the recovered length equals the declared big-endian 4-byte header;
a zero or over-10-MiB declared length fails the exchange with a fatal read
error and no payload; a frame is accepted exactly when
`1 ≤ n ≤ 10·2²⁰` and `n` payload bytes are available, in which case exactly
`n` bytes are consumed as the payload. -/
theorem readFrame_bounds (b0 b1 b2 b3 : Fin 256) (rest : List (Fin 256)) :
    (beUint32 b0 b1 b2 b3 = b0.val * 16777216 + b1.val * 65536 + b2.val * 256 + b3.val) ∧
    ((beUint32 b0 b1 b2 b3 = 0 ∨ 10 * 1024 * 1024 < beUint32 b0 b1 b2 b3) →
      readFrame (b0 :: b1 :: b2 :: b3 :: rest) = .error .unexpectedEOF) ∧
    (1 ≤ beUint32 b0 b1 b2 b3 → beUint32 b0 b1 b2 b3 ≤ 10 * 1024 * 1024 →
      beUint32 b0 b1 b2 b3 ≤ rest.length →
      readFrame (b0 :: b1 :: b2 :: b3 :: rest) =
        .ok (beUint32 b0 b1 b2 b3, rest.take (beUint32 b0 b1 b2 b3),
          rest.drop (beUint32 b0 b1 b2 b3))) ∧
    (∀ n payload tail, readFrame (b0 :: b1 :: b2 :: b3 :: rest) = .ok (n, payload, tail) →
      n = beUint32 b0 b1 b2 b3 ∧ 1 ≤ n ∧ n ≤ 10 * 1024 * 1024 ∧
        payload.length = n ∧ rest = payload ++ tail) := by
  refine ⟨beUint32_eq b0 b1 b2 b3, ?_, ?_, ?_⟩
  · intro h
    simp only [readFrame, if_pos h]
  · intro h1 h2 h3
    rw [readFrame]
    rw [if_neg (by omega), if_neg (by omega)]
  · intro n payload tail h
    rw [readFrame] at h
    split at h
    · cases h
    · next hz =>
      split at h
      · split at h <;> cases h
      · next hlen =>
        injection h with h2
        injection h2 with hn h3
        injection h3 with hp ht
        subst hn hp ht
        push_neg at hz
        refine ⟨rfl, by omega, by omega, ?_, ?_⟩
        · rw [List.length_take]; omega
        · exact (List.take_append_drop _ _).symm

/-- C5 (witness): a valid frame of declared length 1 with payload byte 42
is accepted, the payload is exactly that byte, and nothing else is read. -/
theorem readFrame_bounds_witness :
    readFrame ([0, 0, 0, 1, 42] : List (Fin 256)) = .ok (1, [42], []) :=
  (readFrame_bounds 0 0 0 1 [42]).2.2.1 (by decide) (by decide) (by decide)

/-- C2 (witness): after nine 600 ms observations for `/r/d`, the tenth
promotes `/r`, and `/r/x` then classifies as slow. -/
theorem recordLatency_promotion_witness :
    "/r" ∈ (RecordLatency c2Nine "/r/d" 600000000).slowCfg.RoutePrefixes ∧
      IsSlowRequest (recordMany (RecordLatency c2Nine "/r/d" 600000000) []).slowCfg
        c2WitReq = true :=
  recordLatency_promotion c2Nine "/r/d" 600000000 [] c2WitReq
    (by decide) (by decide) (by decide) (by decide)

theorem startsWithSeq_mem {s pat : List Char} (h : startsWithSeq s pat = true) :
    ∀ c ∈ pat, c ∈ s := by
  induction pat generalizing s with
  | nil => intro c hc; cases hc
  | cons b bs ih =>
    cases s with
    | nil => simp [startsWithSeq] at h
    | cons a as =>
      simp only [startsWithSeq, Bool.and_eq_true, beq_iff_eq] at h
      intro c hc
      rcases List.mem_cons.mp hc with rfl | hc
      · rw [← h.1]; exact List.mem_cons_self a as
      · exact List.mem_cons_of_mem _ (ih h.2 c hc)

theorem containsSeq_mem {s pat : List Char} (h : containsSeq s pat = true) :
    ∀ c ∈ pat, c ∈ s := by
  induction s with
  | nil =>
    intro c hc
    cases pat with
    | nil => cases hc
    | cons b bs => simp [containsSeq, startsWithSeq] at h
  | cons a as ih =>
    simp only [containsSeq, Bool.or_eq_true] at h
    intro c hc
    rcases h with h | h
    · exact startsWithSeq_mem h c hc
    · exact List.mem_cons_of_mem _ (ih h c hc)

theorem goContains_eq_false {s pat : String} {c : Char}
    (hc : c ∈ pat.data) (hbad : okChar c = false)
    (hok : ∀ x ∈ s.data, okChar x = true) : goContains s pat = false := by
  cases h : goContains s pat with
  | false => rfl
  | true =>
    unfold goContains at h
    have := hok c (containsSeq_mem h c hc)
    rw [this] at hbad
    cases hbad

theorem digitChar_ok (n : Nat) : okChar (digitChar n) = true := by
  have h : n % 10 < 10 := Nat.mod_lt _ (by omega)
  unfold digitChar
  generalize n % 10 = m at h
  interval_cases m <;> decide

theorem natDigitsAux_ok (fuel : Nat) : ∀ n, ∀ c ∈ natDigitsAux fuel n, okChar c = true := by
  induction fuel with
  | zero => intro n c hc; simp [natDigitsAux] at hc
  | succ fuel ih =>
    intro n c hc
    unfold natDigitsAux at hc
    split at hc
    · simp only [List.mem_singleton] at hc
      subst hc
      exact digitChar_ok n
    · rcases List.mem_append.mp hc with h | h
      · exact ih _ c h
      · simp only [List.mem_singleton] at h
        subst h
        exact digitChar_ok _

theorem natDigits_ok (n : Nat) : ∀ c ∈ natDigits n, okChar c = true :=
  natDigitsAux_ok (n + 1) n

theorem fmtFracGo_ok (p : Nat) : ∀ v pr, ∀ c ∈ (fmtFracGo v p pr).1, okChar c = true := by
  induction p with
  | zero => intro v pr c hc; simp [fmtFracGo] at hc
  | succ p ih =>
    intro v pr c hc
    unfold fmtFracGo at hc
    dsimp only at hc
    rcases List.mem_append.mp hc with h | h
    · exact ih _ _ c h
    · split at h
      · simp only [List.mem_singleton] at h
        subst h
        exact digitChar_ok _
      · cases h

theorem fmtFrac_ok (v prec : Nat) : ∀ c ∈ (fmtFrac v prec).1, okChar c = true := by
  intro c hc
  unfold fmtFrac at hc
  dsimp only at hc
  split at hc
  · rcases List.mem_cons.mp hc with rfl | h
    · decide
    · exact fmtFracGo_ok _ _ _ c h
  · exact fmtFracGo_ok _ _ _ c hc

theorem ok_of_mem_lit {l : List Char} (hl : l.all okChar = true) :
    ∀ c ∈ l, okChar c = true := fun c hc => List.all_eq_true.mp hl c hc

theorem goDurationChars_ok (d : Int) : ∀ c ∈ goDurationChars d, okChar c = true := by
  have hsign : ∀ x ∈ (if d < 0 then ['-'] else ([] : List Char)), okChar x = true := by
    split <;> decide
  intro c hc
  unfold goDurationChars at hc
  dsimp only at hc
  split at hc
  · split at hc
    · exact ok_of_mem_lit (by decide) c hc
    · simp only [List.mem_append] at hc
      rcases hc with ((h | h) | h) | h
      · exact hsign c h
      · exact natDigits_ok _ c h
      · exact fmtFrac_ok _ _ c h
      · split at h
        · exact ok_of_mem_lit (by decide) c h
        · split at h
          · exact ok_of_mem_lit (by decide) c h
          · exact ok_of_mem_lit (by decide) c h
  · simp only [List.mem_append] at hc
    rcases hc with h | hc
    · exact hsign c h
    · split at hc
      · simp only [List.mem_append] at hc
        rcases hc with (h | h) | h
        · exact natDigits_ok _ c h
        · exact fmtFrac_ok _ _ c h
        · exact ok_of_mem_lit (by decide) c h
      · split at hc
        · simp only [List.mem_append] at hc
          rcases hc with (h | h) | (h | h) | h
          · exact natDigits_ok _ c h
          · exact ok_of_mem_lit (by decide) c h
          · exact natDigits_ok _ c h
          · exact fmtFrac_ok _ _ c h
          · exact ok_of_mem_lit (by decide) c h
        · simp only [List.mem_append] at hc
          rcases hc with (h | h) | ((h | h) | (h | h) | h)
          · exact natDigits_ok _ c h
          · exact ok_of_mem_lit (by decide) c h
          · exact natDigits_ok _ c h
          · exact ok_of_mem_lit (by decide) c h
          · exact natDigits_ok _ c h
          · exact fmtFrac_ok _ _ c h
          · exact ok_of_mem_lit (by decide) c h

theorem timeoutMsg_ok (t : Int) :
    ∀ x ∈ ("worker request timeout after " ++ goDurationString t).data, okChar x = true := by
  intro x hx
  rw [String.data_append] at hx
  rcases List.mem_append.mp hx with h | h
  · have hall : ∀ y ∈ "worker request timeout after ".data, okChar y = true := by decide
    exact hall x h
  · exact goDurationChars_ok t x h

theorem timeoutErr_not_broken (t : Int) :
    isBrokenPipe (.fmtError ("worker request timeout after " ++ goDurationString t)) = false := by
  unfold isBrokenPipe goErrorText
  have h1 := @goContains_eq_false _ "broken pipe" 'b'
    (by decide) (by decide) (timeoutMsg_ok t)
  have h2 := @goContains_eq_false _ "write |1:" '|'
    (by decide) (by decide) (timeoutMsg_ok t)
  have h3 := @goContains_eq_false _ "read |0:" '|'
    (by decide) (by decide) (timeoutMsg_ok t)
  simp [h1, h2, h3]

theorem handleLoop_step_alive (ro : Nat → Option GoError) (xo : Nat → ExchangeOutcome)
    (fuel attempt : Nat) (w : WorkerState) (used : Nat) (halive : w.dead = false) :
    handleLoop ro xo (fuel + 1) attempt w used =
      match handleRequestW w (xo attempt) with
      | none => none
      | some (.error e, w2) =>
        if isBrokenPipe e then
          handleLoop ro xo fuel (attempt + 1) (markDeadW w2) (used + 1)
        else some ⟨.error e, w2, used + 1⟩
      | some (.ok resp, w2) =>
        let n := wrapU64 (w2.requestCount + 1)
        let d := if 0 < w2.maxRequests ∧ w2.maxRequests ≤ int64OfUint64 n
                 then true else w2.dead
        some ⟨.ok resp, { w2 with requestCount := n, dead := d }, used + 1⟩ := by
  simp only [handleLoop]
  rw [if_neg (by simp [halive])]

theorem handleLoop_step_dead (ro : Nat → Option GoError) (xo : Nat → ExchangeOutcome)
    (fuel attempt : Nat) (w : WorkerState) (used : Nat) (hdead : w.dead = true) :
    handleLoop ro xo (fuel + 1) attempt w used =
      match restartW w (ro attempt) with
      | .error e => some ⟨.error e, w, used⟩
      | .ok w1 =>
        match handleRequestW w1 (xo attempt) with
        | none => none
        | some (.error e, w2) =>
          if isBrokenPipe e then
            handleLoop ro xo fuel (attempt + 1) (markDeadW w2) (used + 1)
          else some ⟨.error e, w2, used + 1⟩
        | some (.ok resp, w2) =>
          let n := wrapU64 (w2.requestCount + 1)
          let d := if 0 < w2.maxRequests ∧ w2.maxRequests ≤ int64OfUint64 n
                   then true else w2.dead
          some ⟨.ok resp, { w2 with requestCount := n, dead := d }, used + 1⟩ := by
  simp only [handleLoop]
  rw [if_pos hdead]

/-- C4: with a positive per-request timeout and a child that produces no
response frame within it, `Handle` marks the worker dead, kills and reaps
the child, and returns the formatted timeout error after a single exchange
(no retry); the timeout error is outside the broken-pipe class and
`isDead` observes `true` afterwards. -/
theorem handle_timeout_policy (w : WorkerState) (ro : Nat → Option GoError)
    (xo : Nat → ExchangeOutcome)
    (halive : w.dead = false) (ht : 0 < w.requestTimeout) (hx : xo 0 = .silent) :
    Handle w ro xo =
      some ⟨.error (.fmtError ("worker request timeout after " ++
          goDurationString w.requestTimeout)),
        { w with dead := true, killedReaped := true }, 1⟩ ∧
    isDeadW { w with dead := true, killedReaped := true } = true ∧
    isBrokenPipe (.fmtError ("worker request timeout after " ++
      goDurationString w.requestTimeout)) = false := by
  refine ⟨?_, rfl, timeoutErr_not_broken _⟩
  rw [Handle, handleLoop_step_alive ro xo 1 0 w 0 halive, hx]
  unfold handleRequestW
  rw [if_pos ht]
  dsimp only
  rw [if_neg (by rw [timeoutErr_not_broken]; exact Bool.false_ne_true)]

/-- C4 (witness): a worker with a 1 ms timeout and a silent child: `Handle`
returns the rendered timeout error after one exchange and the worker is
observed dead. -/
theorem handle_timeout_policy_witness :
    Handle (freshWorker 100 1000000) (fun _ => none) (fun _ => .silent) =
      some ⟨.error (.fmtError "worker request timeout after 1ms"),
        { freshWorker 100 1000000 with dead := true, killedReaped := true }, 1⟩ ∧
    isDeadW { freshWorker 100 1000000 with dead := true, killedReaped := true } = true := by
  have h := handle_timeout_policy (freshWorker 100 1000000) (fun _ => none)
    (fun _ => .silent) rfl (by decide) rfl
  refine ⟨?_, h.2.1⟩
  rw [h.1]
  rfl

theorem handleRequestW_outcomeErr (w' : WorkerState) (x : ExchangeOutcome) (e : GoError)
    (h : outcomeErr x = some e) : handleRequestW w' x = some (.error e, w') := by
  cases x with
  | writeFail e' =>
    simp only [outcomeErr, Option.some.injEq] at h
    subst h
    rfl
  | reply res =>
    cases res with
    | error e' =>
      simp only [outcomeErr, Option.some.injEq] at h
      subst h
      rfl
    | ok r => simp [outcomeErr] at h
  | silent => simp [outcomeErr] at h

/-- C3: when the first exchange of `Handle` fails, an error outside the
broken-pipe class is returned after that single exchange with the state
untouched; a broken-pipe class error marks the worker dead and re-enters
the loop exactly once: a failing respawn surfaces the spawn error (state
still dead), a successful retry returns its response after two exchanges,
and a second error ends the loop after two exchanges (a second broken-pipe
error yields `io.ErrUnexpectedEOF`; any other error is returned as is). -/
theorem handle_broken_pipe_policy (w : WorkerState) (ro : Nat → Option GoError)
    (xo : Nat → ExchangeOutcome) (e : GoError)
    (halive : w.dead = false) (hfst : outcomeErr (xo 0) = some e) :
    (isBrokenPipe e = false → Handle w ro xo = some ⟨.error e, w, 1⟩) ∧
    (isBrokenPipe e = true →
      (∀ re, ro 1 = some re →
        Handle w ro xo = some ⟨.error re, { w with dead := true }, 1⟩) ∧
      (∀ resp, ro 1 = none → xo 1 = .reply (.ok resp) →
        Handle w ro xo = some ⟨.ok resp,
          { w with
            dead := (if 0 < w.maxRequests ∧ w.maxRequests ≤ 1 then true else false),
            requestCount := 1, killedReaped := false }, 2⟩) ∧
      (∀ e2, ro 1 = none → outcomeErr (xo 1) = some e2 →
        Handle w ro xo = (if isBrokenPipe e2 = true then
          some ⟨.error .unexpectedEOF,
            { w with dead := true, requestCount := 0, killedReaped := false }, 2⟩
          else some ⟨.error e2,
            { w with dead := false, requestCount := 0, killedReaped := false }, 2⟩))) := by
  have h1 := handleRequestW_outcomeErr w (xo 0) e hfst
  rw [Handle, show (2 : Nat) = 1 + 1 from rfl,
    handleLoop_step_alive ro xo 1 0 w 0 halive, h1]
  dsimp only
  constructor
  · intro hbp
    rw [if_neg (by rw [hbp]; exact Bool.false_ne_true)]
  · intro hbp
    rw [if_pos hbp, show (1 : Nat) = 0 + 1 from rfl,
      handleLoop_step_dead ro xo 0 (0 + 1) (markDeadW w) (0 + 1) rfl]
    refine ⟨?_, ?_, ?_⟩
    · intro re hre
      rw [hre]
      rfl
    · intro resp hro hx1
      rw [hro, hx1]
      dsimp only [restartW, handleRequestW, markDeadW]
      norm_num [wrapU64, int64OfUint64]
    · intro e2 hro hx1
      rw [hro]
      dsimp only [restartW, markDeadW]
      rw [handleRequestW_outcomeErr _ _ _ hx1]
      dsimp only
      by_cases hb2 : isBrokenPipe e2 = true
      · rw [if_pos hb2, if_pos hb2]
        simp only [handleLoop]
      · rw [if_neg hb2, if_neg hb2]

/-- C3 (witness): first exchange fails with `io.EOF` (broken-pipe class),
the retry succeeds: `Handle` returns the retry's response after exactly two
exchanges. -/
theorem handle_broken_pipe_policy_witness :
    Handle c3Worker (fun _ => none) c3Xo =
      some ⟨.ok c3Resp,
        { c3Worker with dead := false, requestCount := 1, killedReaped := false }, 2⟩ := by
  have h := ((handle_broken_pipe_policy c3Worker (fun _ => none) c3Xo .eofErr
    rfl rfl).2 rfl).2.1 c3Resp rfl rfl
  rw [h]
  rfl

/-- C6 (counterexample): a zero-length frame makes the buffered read fail
with `io.ErrUnexpectedEOF`, which `isBrokenPipe` classifies as broken pipe,
so `Handle` retries: with a successful retry it returns the retried
response after two exchanges instead of returning the error after one. -/
theorem handle_size_violation_counterexample :
    bufferedReadResult [0, 0, 0, 0] c6Dec = .error .unexpectedEOF ∧
    Handle (freshWorker 100 1000000000) (fun _ => none) c6Xo =
      some ⟨.ok c6Resp, ⟨false, 1, 100, 1000000000, false⟩, 2⟩ :=
  ⟨rfl, rfl⟩

/-- C6 (amended): a zero-length (or over-limit) frame in a buffered
exchange surfaces as `io.ErrUnexpectedEOF`, which is in the broken-pipe
class, so the worker is marked dead and the exchange is retried exactly
once; the error reaches the caller only if the retry also fails (a second
size violation again yields `io.ErrUnexpectedEOF`). -/
theorem handle_size_violation_retry (w : WorkerState) (ro : Nat → Option GoError)
    (xo : Nat → ExchangeOutcome) (dec : List (Fin 256) → Except GoError ResponsePayload)
    (bytes : List (Fin 256))
    (halive : w.dead = false)
    (hframe : readFrame bytes = .error GoError.unexpectedEOF)
    (hx : xo 0 = .reply (bufferedReadResult bytes dec)) :
    (∀ re, ro 1 = some re →
      Handle w ro xo = some ⟨.error re, { w with dead := true }, 1⟩) ∧
    (∀ resp, ro 1 = none → xo 1 = .reply (.ok resp) →
      Handle w ro xo = some ⟨.ok resp,
        { w with
          dead := (if 0 < w.maxRequests ∧ w.maxRequests ≤ 1 then true else false),
          requestCount := 1, killedReaped := false }, 2⟩) ∧
    (∀ bytes2 dec2, ro 1 = none → readFrame bytes2 = .error GoError.unexpectedEOF →
      xo 1 = .reply (bufferedReadResult bytes2 dec2) →
      Handle w ro xo = some ⟨.error .unexpectedEOF,
        { w with dead := true, requestCount := 0, killedReaped := false }, 2⟩) := by
  have hbuf : bufferedReadResult bytes dec = .error .unexpectedEOF := by
    unfold bufferedReadResult
    rw [hframe]
  have h1 : handleRequestW w (xo 0) = some (.error .unexpectedEOF, w) :=
    handleRequestW_outcomeErr w (xo 0) _ (by rw [hx, hbuf]; rfl)
  rw [Handle, show (2 : Nat) = 1 + 1 from rfl,
    handleLoop_step_alive ro xo 1 0 w 0 halive, h1]
  dsimp only
  rw [if_pos (by rfl : isBrokenPipe .unexpectedEOF = true),
    show (1 : Nat) = 0 + 1 from rfl,
    handleLoop_step_dead ro xo 0 (0 + 1) (markDeadW w) (0 + 1) rfl]
  refine ⟨?_, ?_, ?_⟩
  · intro re hre
    rw [hre]
    rfl
  · intro resp hro hx1
    rw [hro, hx1]
    dsimp only [restartW, handleRequestW, markDeadW]
    norm_num [wrapU64, int64OfUint64]
  · intro bytes2 dec2 hro hframe2 hx1
    have hbuf2 : bufferedReadResult bytes2 dec2 = .error .unexpectedEOF := by
      unfold bufferedReadResult
      rw [hframe2]
    rw [hro]
    dsimp only [restartW, markDeadW]
    rw [handleRequestW_outcomeErr _ _ GoError.unexpectedEOF (by rw [hx1, hbuf2]; rfl)]
    dsimp only
    rw [if_pos (by rfl : isBrokenPipe .unexpectedEOF = true)]
    simp only [handleLoop]

/-- C6 (witness): with a zero-length first frame and a successful retry,
`Handle` returns the retried response after exactly two exchanges. -/
theorem handle_size_violation_retry_witness :
    Handle (freshWorker 100 1000000000) (fun _ => none) c6Xo =
      some ⟨.ok c6Resp, ⟨false, 1, 100, 1000000000, false⟩, 2⟩ := by
  have h := (handle_size_violation_retry (freshWorker 100 1000000000) (fun _ => none)
    c6Xo c6Dec [0, 0, 0, 0] rfl rfl rfl).2.1 c6Resp rfl rfl
  rw [h]
  rfl

theorem handle_success_eval (w : WorkerState) (resp : ResponsePayload)
    (ro : Nat → Option GoError) (halive : w.dead = false) :
    Handle w ro (fun _ => .reply (.ok resp)) =
      some ⟨.ok resp,
        { w with
          requestCount := wrapU64 (w.requestCount + 1),
          dead := (if 0 < w.maxRequests ∧
              w.maxRequests ≤ int64OfUint64 (wrapU64 (w.requestCount + 1))
            then true else w.dead) }, 1⟩ := by
  rw [Handle, show (2 : Nat) = 1 + 1 from rfl,
    handleLoop_step_alive ro _ 1 0 w 0 halive]
  rfl

theorem afterSuccesses_invariant (maxR t : Int) (resp : ResponsePayload)
    (hmax : 0 < maxR) (hbound : maxR < 2 ^ 63) :
    ∀ j : Nat, (j : Int) ≤ maxR →
      (afterSuccesses resp (freshWorker maxR t) j).requestCount = j ∧
      (afterSuccesses resp (freshWorker maxR t) j).dead = decide (maxR ≤ (j : Int)) ∧
      (afterSuccesses resp (freshWorker maxR t) j).maxRequests = maxR := by
  intro j
  induction j with
  | zero =>
    intro _
    refine ⟨rfl, ?_, rfl⟩
    simp only [afterSuccesses, freshWorker]
    exact (decide_eq_false (by omega)).symm
  | succ j ih =>
    intro hj1
    have hjlt : (j : Int) < maxR := by push_cast at hj1; omega
    obtain ⟨hc, hd, hm⟩ := ih hjlt.le
    have hdead : (afterSuccesses resp (freshWorker maxR t) j).dead = false := by
      rw [hd]
      exact decide_eq_false (by omega)
    have hjn : j + 1 < 2 ^ 63 := by
      have h1 : (j : Int) + 1 ≤ maxR := by push_cast at hj1; omega
      have h2 : (j : Int) + 1 < 2 ^ 63 := lt_of_le_of_lt h1 hbound
      exact_mod_cast h2
    have hw : wrapU64 (j + 1) = j + 1 := by
      unfold wrapU64
      apply Nat.mod_eq_of_lt
      have : (2 : Nat) ^ 63 < 2 ^ 64 := by norm_num
      omega
    have hi : int64OfUint64 (j + 1) = (j : Int) + 1 := by
      unfold int64OfUint64
      rw [if_pos hjn]
      push_cast
      ring
    simp only [afterSuccesses]
    rw [handle_success_eval _ resp _ hdead]
    dsimp only
    rw [hc, hm, hw, hi, hdead]
    refine ⟨rfl, ?_, rfl⟩
    by_cases hcross : maxR ≤ (j : Int) + 1
    · rw [if_pos ⟨hmax, hcross⟩]
      have : maxR ≤ ((j + 1 : Nat) : Int) := by push_cast; omega
      rw [decide_eq_true this]
    · rw [if_neg (by tauto)]
      have : ¬ maxR ≤ ((j + 1 : Nat) : Int) := by push_cast at hcross ⊢; omega
      exact (decide_eq_false this).symm

/-- C7: from a fresh (just spawned) worker with a positive budget below
`2^63`: after fewer than `maxR` successful `Handle` calls the worker is
alive with served-count equal to the number of successes; after exactly
`maxR` successes `isDead` observes `true`; and a successful restart resets
the served-count to zero and clears the liveness flag. -/
theorem worker_request_budget (maxR t : Int) (resp : ResponsePayload) (k j : Nat)
    (hmax : 0 < maxR) (hbound : maxR < 2 ^ 63)
    (hk : (k : Int) = maxR) (hj : (j : Int) < maxR) :
    isDeadW (afterSuccesses resp (freshWorker maxR t) k) = true ∧
    isDeadW (afterSuccesses resp (freshWorker maxR t) j) = false ∧
    (afterSuccesses resp (freshWorker maxR t) j).requestCount = j ∧
    (∀ w w' : WorkerState, restartW w none = .ok w' →
      w'.requestCount = 0 ∧ w'.dead = false) := by
  obtain ⟨hck, hdk, _⟩ := afterSuccesses_invariant maxR t resp hmax hbound k (le_of_eq hk)
  obtain ⟨hcj, hdj, _⟩ := afterSuccesses_invariant maxR t resp hmax hbound j hj.le
  refine ⟨?_, ?_, hcj, ?_⟩
  · rw [isDeadW, hdk]
    exact decide_eq_true (le_of_eq hk.symm)
  · rw [isDeadW, hdj]
    exact decide_eq_false (by omega)
  · intro w w' h
    unfold restartW at h
    injection h with h
    exact ⟨by rw [← h], by rw [← h]⟩

/-- C7 (witness): with budget 3, after two successes the worker is alive
with count 2; after the third success it is observed dead. -/
theorem worker_request_budget_witness :
    isDeadW (afterSuccesses c3Resp (freshWorker 3 1000000000) 3) = true ∧
    isDeadW (afterSuccesses c3Resp (freshWorker 3 1000000000) 2) = false ∧
    (afterSuccesses c3Resp (freshWorker 3 1000000000) 2).requestCount = 2 := by
  have h := worker_request_budget 3 1000000000 c3Resp 3 2 (by norm_num) (by norm_num)
    (by norm_num) (by norm_num)
  exact ⟨h.1, h.2.1, h.2.2.1⟩

/-- C8: evaluating the stream loop on the multi-valued-headers scenario
(`X-Test: ["one","two"]`, `Set-Cookie: ["a=1","b=2"]`, then `end`): the
frame fails JSON decoding because `StreamFrame.Headers` is declared
`map[string]string`, the worker is marked dead, no status is written and
no `X-Test` header is produced — whereas the claim (and the repository's
own test `TestFrameHeadersMultiValue`) require `X-Test: one, two` and two
`Set-Cookie` instances. -/
theorem stream_multivalue_headers_divergence :
    (streamRun [c8HeadersFrame, c8EndFrame]).err =
      some (.fmtError "json: cannot unmarshal array into Go value of type string") ∧
    (streamRun [c8HeadersFrame, c8EndFrame]).markedDead = true ∧
    lookupA (streamRun [c8HeadersFrame, c8EndFrame]).rw.header "X-Test" = none ∧
    (streamRun [c8HeadersFrame, c8EndFrame]).rw.wroteStatus = none :=
  ⟨rfl, rfl, rfl, rfl⟩

theorem lookupA_removeA {κ α : Type} [BEq κ] [LawfulBEq κ]
    (l : List (κ × α)) (k : κ) : lookupA (removeA l k) k = none := by
  induction l with
  | nil => rfl
  | cons hd tl ih =>
    obtain ⟨k', v⟩ := hd
    by_cases h : (k' == k) = true
    · simp [removeA, h, ih]
    · simp [removeA, h, lookupA, ih]

/-- C9 (counterexample): with two subscribers on a channel, unsubscribing
client 1 closes its FIFO once, but a second `Unsubscribe` of the already
removed client closes it a second time (a double close — a panic in Go),
so the repeat is not a harmless no-op. -/
theorem unsubscribe_double_close_counterexample :
    subscribersOf (UnsubscribeM c9Hub "room" 1) "room" = [2] ∧
    closedCount (UnsubscribeM c9Hub "room" 1) 1 = 1 ∧
    closedCount (UnsubscribeM (UnsubscribeM c9Hub "room" 1) "room" 1) 1 = 2 :=
  ⟨rfl, rfl, rfl⟩

/-- C9 (amended): `Unsubscribe` removes the client and closes its FIFO;
when the channel entry is gone (the client was the last subscriber, so the
set was dropped), a repeated `Unsubscribe` is a harmless no-op; but while
the channel still has an entry, every `Unsubscribe` call — including one
for an already removed client — closes the FIFO again. -/
theorem unsubscribe_policy (h : HubState) (ch : String) (c : Nat) :
    (∀ subs, lookupA h.clients ch = some subs →
      c ∉ subscribersOf (UnsubscribeM h ch c) ch ∧
      closedCount (UnsubscribeM h ch c) c = closedCount h c + 1) ∧
    (lookupA h.clients ch = none → UnsubscribeM h ch c = h) ∧
    (∀ subs, lookupA h.clients ch = some subs → c ∉ subs → subs ≠ [] →
      closedCount (UnsubscribeM h ch c) c = closedCount h c + 1) := by
  refine ⟨?_, ?_, ?_⟩
  · intro subs hs
    unfold UnsubscribeM
    rw [hs]
    dsimp only
    split
    · constructor
      · show c ∉ (lookupA (removeA h.clients ch) ch).getD []
        rw [lookupA_removeA]
        simp
      · show (lookupA (setA h.closed c (closedCount h c + 1)) c).getD 0 = _
        rw [lookupA_setA_self]
        rfl
    · constructor
      · show c ∉ (lookupA (setA h.clients ch (subs.filter (fun x => x != c))) ch).getD []
        rw [lookupA_setA_self]
        simp [List.mem_filter]
      · show (lookupA (setA h.closed c (closedCount h c + 1)) c).getD 0 = _
        rw [lookupA_setA_self]
        rfl
  · intro hn
    unfold UnsubscribeM
    rw [hn]
  · intro subs hs _ _
    unfold UnsubscribeM
    rw [hs]
    dsimp only
    split
    · show (lookupA (setA h.closed c (closedCount h c + 1)) c).getD 0 = _
      rw [lookupA_setA_self]
      rfl
    · show (lookupA (setA h.closed c (closedCount h c + 1)) c).getD 0 = _
      rw [lookupA_setA_self]
      rfl

/-- C9 (witness): on the two-subscriber hub, the first `Unsubscribe`
removes client 1 and closes its FIFO once; a second `Unsubscribe` of the
already removed client, with client 2 still subscribed, closes it again. -/
theorem unsubscribe_policy_witness :
    1 ∉ subscribersOf (UnsubscribeM c9Hub "room" 1) "room" ∧
    closedCount (UnsubscribeM c9Hub "room" 1) 1 = closedCount c9Hub 1 + 1 ∧
    closedCount (UnsubscribeM (UnsubscribeM c9Hub "room" 1) "room" 1) 1 =
      closedCount (UnsubscribeM c9Hub "room" 1) 1 + 1 := by
  have h1 := (unsubscribe_policy c9Hub "room" 1).1 [1, 2] rfl
  have h2 := (unsubscribe_policy (UnsubscribeM c9Hub "room" 1) "room" 1).2.2 [2]
    rfl (by decide) (by decide)
  exact ⟨h1.1, h1.2, h2⟩

theorem lookupA_setA_ne {κ α : Type} [BEq κ] [LawfulBEq κ]
    (l : List (κ × α)) (k k' : κ) (v : α) (h : ¬ k = k') :
    lookupA (setA l k v) k' = lookupA l k' := by
  induction l with
  | nil => simp [setA, lookupA, h]
  | cons hd tl ih =>
    obtain ⟨k0, w⟩ := hd
    by_cases h0 : (k0 == k) = true
    · have : k0 = k := by simpa using h0
      subst this
      simp [setA, lookupA, h, h0]
    · simp only [setA, h0, if_false]
      simp only [lookupA]
      split
      · rfl
      · exact ih

theorem publish_fold_not_mem (ev : WSMessageM) (cs : List Nat)
    (bufs : List (Nat × List WSMessageM)) (c : Nat) (hc : c ∉ cs) :
    lookupA (cs.foldl (offerEv ev) bufs) c = lookupA bufs c := by
  induction cs generalizing bufs with
  | nil => rfl
  | cons a rest ih =>
    have hne : ¬ a = c := fun h => hc (h ▸ List.mem_cons_self a rest)
    have hrest : c ∉ rest := fun h => hc (List.mem_cons_of_mem a h)
    show lookupA (rest.foldl (offerEv ev) (offerEv ev bufs a)) c = _
    rw [ih _ hrest]
    unfold offerEv
    dsimp only
    split
    · exact lookupA_setA_ne _ _ _ _ hne
    · rfl

theorem publish_fold_mem (ev : WSMessageM) (cs : List Nat)
    (bufs : List (Nat × List WSMessageM)) (c : Nat)
    (hnd : cs.Nodup) (hc : c ∈ cs) :
    lookupA (cs.foldl (offerEv ev) bufs) c =
      (if ((lookupA bufs c).getD []).length < 16
       then some ((lookupA bufs c).getD [] ++ [ev]) else lookupA bufs c) := by
  induction cs generalizing bufs with
  | nil => cases hc
  | cons a rest ih =>
    rcases List.mem_cons.mp hc with rfl | hin
    · have hrest : c ∉ rest := (List.nodup_cons.mp hnd).1
      show lookupA (rest.foldl (offerEv ev) (offerEv ev bufs c)) c = _
      rw [publish_fold_not_mem ev rest _ c hrest]
      unfold offerEv
      dsimp only
      split
      · rw [lookupA_setA_self]
      · rfl
    · have hne : ¬ a = c := fun h => (List.nodup_cons.mp hnd).1 (h ▸ hin)
      have hlook : lookupA (offerEv ev bufs a) c = lookupA bufs c := by
        unfold offerEv
        dsimp only
        split
        · exact lookupA_setA_ne _ _ _ _ hne
        · rfl
      show lookupA (rest.foldl (offerEv ev) (offerEv ev bufs a)) c = _
      rw [ih _ (List.nodup_cons.mp hnd).2 hin, hlook]

/-- C10: `Publish` with an encodable payload offers the message to every
current subscriber of the channel without blocking: a subscriber whose
FIFO has room (length < 16) gets the message appended, a subscriber with a
full FIFO keeps its FIFO unchanged, clients not subscribed to the channel
are untouched, the subscriber registry is untouched, and publishing to a
channel with no subscribers changes nothing at all. -/
theorem publish_nonblocking (h : HubState) (ch ty data : String) (c : Nat)
    (hnd : (subscribersOf h ch).Nodup) :
    (c ∈ subscribersOf h ch →
      bufOf (PublishM h ch ty (some data)) c =
        (if (bufOf h c).length < 16 then bufOf h c ++ [⟨ch, ty, data⟩]
         else bufOf h c)) ∧
    (c ∉ subscribersOf h ch → bufOf (PublishM h ch ty (some data)) c = bufOf h c) ∧
    (PublishM h ch ty (some data)).clients = h.clients ∧
    (PublishM h ch ty (some data)).closed = h.closed ∧
    (subscribersOf h ch = [] → PublishM h ch ty (some data) = h) := by
  refine ⟨?_, ?_, rfl, rfl, ?_⟩
  · intro hc
    show (lookupA ((subscribersOf h ch).foldl (offerEv _) h.bufs) c).getD [] = _
    rw [publish_fold_mem _ _ _ _ hnd hc]
    unfold bufOf
    split
    · rfl
    · rfl
  · intro hc
    show (lookupA ((subscribersOf h ch).foldl (offerEv _) h.bufs) c).getD [] = _
    rw [publish_fold_not_mem _ _ _ _ hc]
    rfl
  · intro hempty
    unfold PublishM
    dsimp only
    rw [hempty]
    rfl

/-- C10 (witness): publishing on the hub where client 1 has an empty FIFO
and client 2 a full one delivers to client 1 and leaves client 2's FIFO
unchanged. -/
theorem publish_nonblocking_witness :
    bufOf (PublishM c10Hub "room" "ev" (some "p")) 1 = [⟨"room", "ev", "p"⟩] ∧
    bufOf (PublishM c10Hub "room" "ev" (some "p")) 2 =
      List.replicate 16 ⟨"room", "old", "x"⟩ := by
  have h1 := (publish_nonblocking c10Hub "room" "ev" "p" 1 (by decide)).1 (by decide)
  have h2 := (publish_nonblocking c10Hub "room" "ev" "p" 2 (by decide)).1 (by decide)
  constructor
  · rw [h1]
    rfl
  · rw [h2]
    rfl

end AppServer
